import Mathlib

/-!
Verification of the AI voice server (src/ai_voice_server.py).

The development shallowly embeds the bespoke logic of the server:
the lenient JSON-reply extraction routine (`extract_json_block` plus the
parse-with-fallback and key-normalization code of the `/chat` handler),
a model of the stdlib `json.loads` parser restricted to `str` input, and
models of the two HTTP handlers with the external model calls abstracted
as function parameters.  A raised Python exception that the modelled code
does not itself catch is represented by `Option.none`.
-/

/-- JSON values as produced by the stdlib JSON parser.  Objects are
insertion-ordered association lists, matching Python dict semantics;
numbers keep their source lexeme (their numeric value is never consumed
by the code under verification). -/
inductive JValue : Type where
  | null : JValue
  | bool : Bool → JValue
  | num : String → JValue
  | str : String → JValue
  | arr : List JValue → JValue
  | obj : List (String × JValue) → JValue
deriving Repr

/-- Lookup in an insertion-ordered association list: Python `d[k]` /
`k in d` on a dict built by insertion. -/
def dictGet : List (String × JValue) → String → Option JValue
  | [], _ => none
  | (k, v) :: rest, key => if k = key then some v else dictGet rest key

/-- Python `d[k] = v` on a dict: update in place when the key exists,
append otherwise. -/
def dictInsert : List (String × JValue) → String → JValue → List (String × JValue)
  | [], key, v => [(key, v)]
  | (k, w) :: rest, key, v =>
      if k = key then (k, v) :: rest else (k, w) :: dictInsert rest key v

/-- The brace, backtick and quote characters, written via code points. -/
def lbrace : Char := Char.ofNat 123

def rbrace : Char := Char.ofNat 125

def backtick : Char := Char.ofNat 96

def ticks : List Char := [backtick, backtick, backtick]

/-- Modelled from Python `str.strip()` restricted to the ASCII whitespace
characters (space, tab, newline, carriage return, vertical tab, form feed). -/
def pyIsSpace (c : Char) : Bool :=
  c == ' ' || c == '\t' || c == '\n' || c == '\r' ||
    c == Char.ofNat 11 || c == Char.ofNat 12

def pyStripList (l : List Char) : List Char :=
  ((l.dropWhile pyIsSpace).reverse.dropWhile pyIsSpace).reverse

def pyStrip (s : String) : String :=
  String.mk (pyStripList s.data)

/-- Python `s.rfind(c)`: index of the last occurrence, if any. -/
def pyRfindIdx (l : List Char) (c : Char) : Option Nat :=
  match l.reverse.findIdx? (fun x => x == c) with
  | some i => some (l.length - 1 - i)
  | none => none

/-- Removal of a trailing code-fence marker: Python
`raw[:-3] if raw.endswith("` ``` `") else raw` (source lines 44-45). -/
def dropTrailingTicks (l : List Char) : List Char :=
  if l.drop (l.length - 3) = ticks then l.take (l.length - 3) else l

/-- The fence-stripping step of `extract_json_block` (source lines 37-47):
if the text starts with a triple backtick, drop through the first newline,
drop a trailing triple backtick, and re-strip. -/
def strip_fence (l : List Char) : List Char :=
  if l.take 3 = ticks then
    pyStripList (dropTrailingTicks
      (match l.findIdx? (fun c => c == '\n') with
       | some i => l.drop (i + 1)
       | none => l))
  else l

/-- The boundary-extraction step of `extract_json_block` (source lines
49-53): slice from the first opening brace to the last closing brace when
the latter occurs strictly after the former. -/
def brace_slice (l : List Char) : List Char :=
  match l.findIdx? (fun c => c == lbrace), pyRfindIdx l rbrace with
  | some s, some e => if s < e then (l.drop s).take (e + 1 - s) else l
  | some _, none => l
  | none, _ => l

/-- `extract_json_block` (source lines 26-55). -/
def extract_json_block (raw : String) : String :=
  if raw = "" then ""
  else String.mk (pyStripList (brace_slice (strip_fence (pyStripList raw.data))))

/-! A model of the stdlib `json.loads` on `str` input, default hooks and
strict mode.  Insignificant whitespace is the four JSON whitespace
characters; strings follow the strict `scanstring` (escape sequences and
rejection of raw control characters); numbers follow the scanner regex
with the lexeme retained; `NaN`, `Infinity` and `-Infinity` are accepted
as number constants; objects are built by dict insertion (duplicate keys:
last value wins, first position kept); trailing data is rejected. -/

def jsonWs (c : Char) : Bool :=
  c == ' ' || c == '\t' || c == '\n' || c == '\r'

def hexDigitVal (c : Char) : Option Nat :=
  if '0' ≤ c ∧ c ≤ '9' then some (c.toNat - 48)
  else if 'a' ≤ c ∧ c ≤ 'f' then some (c.toNat - 87)
  else if 'A' ≤ c ∧ c ≤ 'F' then some (c.toNat - 55)
  else none

def escapeChar (c : Char) : Option Char :=
  if c = '"' then some '"'
  else if c = '\\' then some '\\'
  else if c = '/' then some '/'
  else if c = 'b' then some (Char.ofNat 8)
  else if c = 'f' then some (Char.ofNat 12)
  else if c = 'n' then some '\n'
  else if c = 'r' then some '\r'
  else if c = 't' then some '\t'
  else none

/-- Body of a JSON string literal after the opening quote: the decoded
characters and the remaining input after the closing quote. -/
def parseStringChars : List Char → Option (List Char × List Char)
  | [] => none
  | c :: rest =>
    if c = '"' then some ([], rest)
    else if c = '\\' then
      match rest with
      | [] => none
      | e :: rest2 =>
        if e = 'u' then
          match rest2 with
          | a :: b :: c2 :: d :: rest3 =>
            match hexDigitVal a, hexDigitVal b, hexDigitVal c2, hexDigitVal d with
            | some ha, some hb, some hc, some hd =>
              (parseStringChars rest3).map
                (fun p => (Char.ofNat (((ha * 16 + hb) * 16 + hc) * 16 + hd) :: p.1, p.2))
            | _, _, _, _ => none
          | _ => none
        else
          match escapeChar e with
          | some ec => (parseStringChars rest2).map (fun p => (ec :: p.1, p.2))
          | none => none
    else if c.toNat < 32 then none
    else (parseStringChars rest).map (fun p => (c :: p.1, p.2))

/-- Integer part of the number regex: `0` or a nonzero digit followed by
digits. -/
def parseIntDigits : List Char → Option (List Char × List Char)
  | [] => none
  | c :: rest =>
    if c = '0' then some (['0'], rest)
    else if c.isDigit then
      some (c :: rest.takeWhile Char.isDigit, rest.dropWhile Char.isDigit)
    else none

/-- Optional fraction part `(\.\d+)?` of the number regex. -/
def parseFracDigits : List Char → List Char × List Char
  | '.' :: rest =>
    match rest.takeWhile Char.isDigit with
    | [] => ([], '.' :: rest)
    | ds => ('.' :: ds, rest.dropWhile Char.isDigit)
  | l => ([], l)

/-- Optional exponent part `([eE][-+]?\d+)?` of the number regex. -/
def parseExpDigits (l : List Char) : List Char × List Char :=
  match l with
  | e :: rest =>
    if e = 'e' ∨ e = 'E' then
      let (sgn, rest2) : List Char × List Char :=
        match rest with
        | s :: r => if s = '+' ∨ s = '-' then ([s], r) else ([], rest)
        | [] => ([], rest)
      match rest2.takeWhile Char.isDigit with
      | [] => ([], l)
      | ds => (e :: sgn ++ ds, rest2.dropWhile Char.isDigit)
    else ([], l)
  | [] => ([], l)

/-- A number lexeme at the head of the input, per the scanner regex. -/
def parseNumberLexeme (l : List Char) : Option (String × List Char) :=
  let (sgn, l1) : List Char × List Char :=
    match l with
    | c :: r => if c = '-' then (['-'], r) else ([], l)
    | [] => ([], l)
  match parseIntDigits l1 with
  | none => none
  | some (ip, l2) =>
    let (fp, l3) := parseFracDigits l2
    let (ep, l4) := parseExpDigits l3
    some (String.mk (sgn ++ ip ++ fp ++ ep), l4)

/-- The non-standard number constants the scanner accepts. -/
def parseNumConstants (l : List Char) : Option (String × List Char) :=
  if l.take 3 = "NaN".data then some ("NaN", l.drop 3)
  else if l.take 8 = "Infinity".data then some ("Infinity", l.drop 8)
  else if l.take 9 = "-Infinity".data then some ("-Infinity", l.drop 9)
  else none

mutual

/-- One JSON value at the head of the input (fuel-indexed). -/
def parseValue : Nat → List Char → Option (JValue × List Char)
  | 0, _ => none
  | fuel + 1, l =>
    match l with
    | [] => none
    | c :: rest =>
      if c = '"' then
        (parseStringChars rest).map (fun p => (JValue.str (String.mk p.1), p.2))
      else if c = lbrace then
        parseObjectBody fuel (rest.dropWhile jsonWs)
      else if c = '[' then
        parseArrayBody fuel (rest.dropWhile jsonWs)
      else if l.take 4 = "null".data then some (JValue.null, l.drop 4)
      else if l.take 4 = "true".data then some (JValue.bool true, l.drop 4)
      else if l.take 5 = "false".data then some (JValue.bool false, l.drop 5)
      else
        match parseNumConstants l with
        | some (s, r) => some (JValue.num s, r)
        | none => (parseNumberLexeme l).map (fun p => (JValue.num p.1, p.2))

/-- Object body after the opening brace and whitespace. -/
def parseObjectBody : Nat → List Char → Option (JValue × List Char)
  | 0, _ => none
  | fuel + 1, l =>
    match l with
    | [] => none
    | c :: rest =>
      if c = rbrace then some (JValue.obj [], rest)
      else parseMembers fuel l []

/-- Members of an object: `"key" : value` pairs separated by commas,
accumulated by dict insertion, until the closing brace. -/
def parseMembers : Nat → List Char → List (String × JValue) → Option (JValue × List Char)
  | 0, _, _ => none
  | fuel + 1, l, acc =>
    match l with
    | [] => none
    | c :: rest =>
      if c = '"' then
        match parseStringChars rest with
        | none => none
        | some (key, r1) =>
          match r1.dropWhile jsonWs with
          | ':' :: r3 =>
            match parseValue fuel (r3.dropWhile jsonWs) with
            | none => none
            | some (v, r4) =>
              let acc2 := dictInsert acc (String.mk key) v
              match r4.dropWhile jsonWs with
              | ',' :: r6 => parseMembers fuel (r6.dropWhile jsonWs) acc2
              | d :: r6 =>
                if d = rbrace then some (JValue.obj acc2, r6) else none
              | [] => none
          | _ => none
      else none

/-- Array body after the opening bracket and whitespace. -/
def parseArrayBody : Nat → List Char → Option (JValue × List Char)
  | 0, _ => none
  | fuel + 1, l =>
    match l with
    | ']' :: rest => some (JValue.arr [], rest)
    | _ => parseElems fuel l []

/-- Elements of an array separated by commas, until the closing bracket. -/
def parseElems : Nat → List Char → List JValue → Option (JValue × List Char)
  | 0, _, _ => none
  | fuel + 1, l, acc =>
    match parseValue fuel l with
    | none => none
    | some (v, r1) =>
      match r1.dropWhile jsonWs with
      | ',' :: r3 => parseElems fuel (r3.dropWhile jsonWs) (acc ++ [v])
      | ']' :: r3 => some (JValue.arr (acc ++ [v]), r3)
      | _ => none

end

/-- `json.loads` on a `str`: skip leading whitespace, scan one value,
require only whitespace to remain. -/
def json_loads (s : String) : Option JValue :=
  let l := s.data.dropWhile jsonWs
  match parseValue (4 * l.length + 4) l with
  | some (v, rest) => if rest.dropWhile jsonWs = [] then some v else none
  | none => none

/-! The `/chat` handler (source lines 116-172). -/

/-- The fallback structure built when the inner parse fails (source lines
143-148). -/
def fallback_obj (raw : String) : List (String × JValue) :=
  [("reply", JValue.str raw), ("order", JValue.arr []),
    ("check_sandwich", JValue.bool false)]

/-- Key normalization, source lines 151-152: default `reply` to the empty
string when absent. -/
def ensure_reply (kvs : List (String × JValue)) : List (String × JValue) :=
  match dictGet kvs "reply" with
  | none => dictInsert kvs "reply" (JValue.str "")
  | some _ => kvs

/-- Key normalization, source lines 153-154: default `order` to the empty
array when absent or bound to JSON null. -/
def ensure_order (kvs : List (String × JValue)) : List (String × JValue) :=
  match dictGet kvs "order" with
  | none => dictInsert kvs "order" (JValue.arr [])
  | some JValue.null => dictInsert kvs "order" (JValue.arr [])
  | some _ => kvs

/-- Key normalization, source lines 155-156: default `check_sandwich` to
false when absent. -/
def ensure_check (kvs : List (String × JValue)) : List (String × JValue) :=
  match dictGet kvs "check_sandwich" with
  | none => dictInsert kvs "check_sandwich" (JValue.bool false)
  | some _ => kvs

/-- Key normalization (source lines 150-156).  On a non-dict value the
Python membership tests and item assignments raise `TypeError` outside the
inner `try`, modelled as `none`: an `int`, `float`, `bool` or `None` fails
at `"reply" not in parsed`; a `str` or `list` fails at the first item
assignment or at the `parsed["order"]` subscript. -/
def ensure_keys : JValue → Option (List (String × JValue))
  | JValue.obj kvs => some (ensure_check (ensure_order (ensure_reply kvs)))
  | _ => none

/-- The base structure fed to normalization: the parsed object on parse
success, the fallback wrapping the untouched input on failure (source
lines 138-148). -/
def parse_or_fallback (raw : String) : JValue :=
  match json_loads (extract_json_block raw) with
  | some v => v
  | none => JValue.obj (fallback_obj raw)

/-- The extract routine of the `/chat` handler: `extract_json_block`, the
JSON parse with fallback, and key normalization (source lines 138-156).
`none` models an uncaught exception escaping to the outer handler. -/
def extract (raw : String) : Option (List (String × JValue)) :=
  ensure_keys (parse_or_fallback raw)

def isObj : JValue → Bool
  | JValue.obj _ => true
  | _ => false

/-- Truthiness of a parsed JSON value under Python `if messages:`.  A
number is falsy exactly when its mantissa digits are all zero. -/
def numIsZero (lex : String) : Bool :=
  let ds := (lex.data.takeWhile (fun c => !(c == 'e' || c == 'E'))).filter Char.isDigit
  !ds.isEmpty && ds.all (fun c => c == '0')

def jTruthy : JValue → Bool
  | JValue.null => false
  | JValue.bool b => b
  | JValue.num lex => !numIsZero lex
  | JValue.str s => s ≠ ""
  | JValue.arr l => !l.isEmpty
  | JValue.obj l => !l.isEmpty

/-- Python values that support slicing with `[:120]` among parsed JSON
values: strings and lists. -/
def sliceable : JValue → Bool
  | JValue.str _ => true
  | JValue.arr _ => true
  | _ => false

/-- Whether `print(f"...")` on one logged entry succeeds (source line
125): the entry must be a dict with keys `role` and `content`, and the
`content` value must support slicing. -/
def log_msg_ok : JValue → Bool
  | JValue.obj kvs =>
    (dictGet kvs "role").isSome &&
      (match dictGet kvs "content" with
       | some v => sliceable v
       | none => false)
  | _ => false

/-- Python `messages[-3:]` on a list. -/
def lastThree {α : Type} (l : List α) : List α := l.drop (l.length - 3)

/-- Whether the request-logging block (source lines 122-125) completes
without raising.  A falsy `messages` skips the block; a truthy non-list
either fails to slice or yields elements on which the subscripts raise
(each character of a sliced string is a one-character string, and
`m["role"]` on it raises `TypeError`). -/
def log_messages_ok (messages : JValue) : Bool :=
  if jTruthy messages then
    match messages with
    | JValue.arr l => (lastThree l).all log_msg_ok
    | _ => false
  else true

/-- The body of the `/chat` handler inside the outer `try` (source lines
118-164).  `req` is the result of `request.get_json(force=True)` (`none`
when it raises); `model` abstracts `ollama.chat` followed by the
`response["message"]["content"]` accesses, returning the content string
or `none` when any of that raises.  `data.get` on a non-dict raises
`AttributeError`. -/
def chat_route_body (req : Option JValue) (model : JValue → Option String) :
    Option (List (String × JValue)) :=
  match req with
  | none => none
  | some data =>
    match data with
    | JValue.obj kvs =>
      let messages := (dictGet kvs "messages").getD (JValue.arr [])
      if log_messages_ok messages then
        match model messages with
        | none => none
        | some content => extract (pyStrip content)
      else none
    | _ => none

/-- The fixed fallback payload of the outer handler (source lines
166-172). -/
def server_fallback : List (String × JValue) :=
  [("reply", JValue.str "Something went wrong on the server."),
    ("order", JValue.arr []), ("check_sandwich", JValue.bool false)]

/-- The `/chat` handler: the body with every exception caught and turned
into the fixed fallback payload. -/
def chat_route (req : Option JValue) (model : JValue → Option String) :
    List (String × JValue) :=
  match chat_route_body req model with
  | some o => o
  | none => server_fallback

/-! The `/stt` handler (source lines 88-110). -/

/-- Python `" ".join(...)`. -/
def pyJoin (sep : String) : List String → String
  | [] => ""
  | [s] => s
  | s :: rest => s ++ sep ++ pyJoin sep rest

/-- The `/stt` handler.  `audio_bytes` is the request body; `decode`
abstracts `sf.read` (`none` when it raises), `to_mono` the stereo-to-mono
averaging (source lines 99-100), and `transcribe` the Whisper call
returning the segment texts (`none` when it raises).  Every failure is
caught and reported as empty text. -/
def stt_route {α : Type} (audio_bytes : List Nat) (decode : List Nat → Option α)
    (to_mono : α → α) (transcribe : α → Option (List String)) :
    List (String × JValue) :=
  if audio_bytes.isEmpty then [("text", JValue.str "")]
  else
    match decode audio_bytes with
    | none => [("text", JValue.str "")]
    | some audio =>
      match transcribe (to_mono audio) with
      | none => [("text", JValue.str "")]
      | some segs => [("text", JValue.str (pyJoin " " (segs.map pyStrip)))]

/-! Helper lemmas about dict operations and the normalization steps. -/

theorem dictGet_dictInsert_self (l : List (String × JValue)) (k : String) (v : JValue) :
    dictGet (dictInsert l k v) k = some v := by
  induction l with
  | nil => simp [dictInsert, dictGet]
  | cons p rest ih =>
    obtain ⟨k0, w⟩ := p
    by_cases h : k0 = k
    · simp [dictInsert, dictGet, h]
    · simp [dictInsert, dictGet, h, ih]

theorem dictGet_dictInsert_other (l : List (String × JValue)) (k k' : String) (v : JValue)
    (h : k' ≠ k) : dictGet (dictInsert l k v) k' = dictGet l k' := by
  induction l with
  | nil => simp [dictInsert, dictGet, Ne.symm h]
  | cons p rest ih =>
    obtain ⟨k0, w⟩ := p
    by_cases h0 : k0 = k
    · subst h0
      simp [dictInsert, dictGet, Ne.symm h]
    · by_cases h1 : k0 = k'
      · simp [dictInsert, dictGet, h0, h1, h]
      · simp [dictInsert, dictGet, h0, h1, ih]

theorem ensure_reply_get_reply (kvs : List (String × JValue)) :
    (dictGet (ensure_reply kvs) "reply").isSome = true := by
  cases h : dictGet kvs "reply" with
  | none => simp [ensure_reply, h, dictGet_dictInsert_self]
  | some v => simp [ensure_reply, h]

theorem ensure_reply_get_other (kvs : List (String × JValue)) (k : String)
    (h : k ≠ "reply") : dictGet (ensure_reply kvs) k = dictGet kvs k := by
  cases hd : dictGet kvs "reply" with
  | none =>
    simp only [ensure_reply, hd]
    exact dictGet_dictInsert_other kvs "reply" k (JValue.str "") h
  | some v => simp [ensure_reply, hd]

theorem ensure_order_get_default (kvs : List (String × JValue))
    (h : dictGet kvs "order" = none ∨ dictGet kvs "order" = some JValue.null) :
    dictGet (ensure_order kvs) "order" = some (JValue.arr []) := by
  rcases h with h | h <;>
    simp [ensure_order, h, dictGet_dictInsert_self]

theorem ensure_order_get_keep (kvs : List (String × JValue)) (v : JValue)
    (h : dictGet kvs "order" = some v) (hv : v ≠ JValue.null) :
    dictGet (ensure_order kvs) "order" = some v := by
  unfold ensure_order
  rw [h]
  cases v with
  | null => exact absurd rfl hv
  | bool b => exact h
  | num s => exact h
  | str s => exact h
  | arr l => exact h
  | obj l => exact h

theorem ensure_order_get_order (kvs : List (String × JValue)) :
    (dictGet (ensure_order kvs) "order").isSome = true := by
  cases h : dictGet kvs "order" with
  | none => rw [ensure_order_get_default kvs (Or.inl h)]; rfl
  | some v =>
    cases v with
    | null => rw [ensure_order_get_default kvs (Or.inr h)]; rfl
    | bool b => rw [ensure_order_get_keep kvs _ h (fun hh => JValue.noConfusion hh)]; rfl
    | num s => rw [ensure_order_get_keep kvs _ h (fun hh => JValue.noConfusion hh)]; rfl
    | str s => rw [ensure_order_get_keep kvs _ h (fun hh => JValue.noConfusion hh)]; rfl
    | arr l => rw [ensure_order_get_keep kvs _ h (fun hh => JValue.noConfusion hh)]; rfl
    | obj l => rw [ensure_order_get_keep kvs _ h (fun hh => JValue.noConfusion hh)]; rfl

theorem ensure_order_get_other (kvs : List (String × JValue)) (k : String)
    (h : k ≠ "order") : dictGet (ensure_order kvs) k = dictGet kvs k := by
  cases hd : dictGet kvs "order" with
  | none =>
    simp only [ensure_order, hd]
    exact dictGet_dictInsert_other kvs "order" k (JValue.arr []) h
  | some v =>
    unfold ensure_order
    rw [hd]
    cases v with
    | null => exact dictGet_dictInsert_other kvs "order" k (JValue.arr []) h
    | bool b => rfl
    | num s => rfl
    | str s => rfl
    | arr l => rfl
    | obj l => rfl

theorem ensure_check_get_check (kvs : List (String × JValue)) :
    (dictGet (ensure_check kvs) "check_sandwich").isSome = true := by
  cases h : dictGet kvs "check_sandwich" with
  | none => simp [ensure_check, h, dictGet_dictInsert_self]
  | some v => simp [ensure_check, h]

theorem ensure_check_get_other (kvs : List (String × JValue)) (k : String)
    (h : k ≠ "check_sandwich") : dictGet (ensure_check kvs) k = dictGet kvs k := by
  cases hd : dictGet kvs "check_sandwich" with
  | none =>
    simp only [ensure_check, hd]
    exact dictGet_dictInsert_other kvs "check_sandwich" k (JValue.bool false) h
  | some v => simp [ensure_check, hd]

theorem ensure_chain_reply (kvs : List (String × JValue)) :
    (dictGet (ensure_check (ensure_order (ensure_reply kvs))) "reply").isSome = true := by
  rw [ensure_check_get_other _ _ (by decide), ensure_order_get_other _ _ (by decide)]
  exact ensure_reply_get_reply kvs

theorem ensure_chain_order (kvs : List (String × JValue)) :
    (dictGet (ensure_check (ensure_order (ensure_reply kvs))) "order").isSome = true := by
  rw [ensure_check_get_other _ _ (by decide)]
  exact ensure_order_get_order (ensure_reply kvs)

theorem ensure_chain_other (kvs : List (String × JValue)) (k : String)
    (h1 : k ≠ "reply") (h2 : k ≠ "order") (h3 : k ≠ "check_sandwich") :
    dictGet (ensure_check (ensure_order (ensure_reply kvs))) k = dictGet kvs k := by
  rw [ensure_check_get_other _ _ h3, ensure_order_get_other _ _ h2,
    ensure_reply_get_other _ _ h1]

/-- C1 (amended): for every text input, the extract routine raises only
when the cleaned text parses to a non-object JSON value (the `TypeError`
from the normalization step then escapes the routine, modelled by
`none`); whenever it returns, the result is an object containing the keys
`reply`, `order` and `check_sandwich` — parsed values of whatever type
are kept as-is and only absent keys (or a null `order`) are defaulted —
plus any extra keys of a successfully parsed object, passed through
unchanged. -/
theorem extract_total_except_nonobject_parse (s : String) :
    (∃ v, json_loads (extract_json_block s) = some v ∧ isObj v = false ∧
      extract s = none)
    ∨ (∃ o, extract s = some o ∧
        (dictGet o "reply").isSome = true ∧
        (dictGet o "order").isSome = true ∧
        (dictGet o "check_sandwich").isSome = true ∧
        ∀ kvs, parse_or_fallback s = JValue.obj kvs →
          ∀ k, k ≠ "reply" → k ≠ "order" → k ≠ "check_sandwich" →
            dictGet o k = dictGet kvs k) := by
  cases hj : json_loads (extract_json_block s) with
  | none =>
    right
    refine ⟨ensure_check (ensure_order (ensure_reply (fallback_obj s))), ?_,
      ensure_chain_reply _, ensure_chain_order _, ensure_check_get_check _, ?_⟩
    · simp [extract, parse_or_fallback, hj, ensure_keys]
    · intro kvs hk k h1 h2 h3
      have hkv : fallback_obj s = kvs := by
        have hpf : parse_or_fallback s = JValue.obj (fallback_obj s) := by
          simp [parse_or_fallback, hj]
        rw [hpf] at hk
        exact JValue.obj.inj hk
      rw [← hkv]
      exact ensure_chain_other (fallback_obj s) k h1 h2 h3
  | some v =>
    cases v with
    | obj kvs =>
      right
      refine ⟨ensure_check (ensure_order (ensure_reply kvs)), ?_,
        ensure_chain_reply _, ensure_chain_order _, ensure_check_get_check _, ?_⟩
      · simp [extract, parse_or_fallback, hj, ensure_keys]
      · intro kvs' hk k h1 h2 h3
        have hkv : kvs = kvs' := by
          have hpf : parse_or_fallback s = JValue.obj kvs := by
            simp [parse_or_fallback, hj]
          rw [hpf] at hk
          exact JValue.obj.inj hk
        rw [← hkv]
        exact ensure_chain_other kvs k h1 h2 h3
    | null =>
      left
      exact ⟨JValue.null, rfl, rfl, by simp [extract, parse_or_fallback, hj, ensure_keys]⟩
    | bool b =>
      left
      exact ⟨JValue.bool b, rfl, rfl, by simp [extract, parse_or_fallback, hj, ensure_keys]⟩
    | num n =>
      left
      exact ⟨JValue.num n, rfl, rfl, by simp [extract, parse_or_fallback, hj, ensure_keys]⟩
    | str t =>
      left
      exact ⟨JValue.str t, rfl, rfl, by simp [extract, parse_or_fallback, hj, ensure_keys]⟩
    | arr l =>
      left
      exact ⟨JValue.arr l, rfl, rfl, by simp [extract, parse_or_fallback, hj, ensure_keys]⟩

/-- C1 counterexample: the claim as stated is false.  At input "123" the
cleaned text parses to the JSON number 123 and the normalization step
raises a `TypeError` (modelled by `none`), so the routine is not total;
and at an object input whose `reply` is the number 42 the returned
`reply` keeps the number, so the returned keys do not always carry the
claimed types. -/
theorem extract_nonobject_counterexample :
    extract "123" = none ∧
    json_loads (extract_json_block "123") = some (JValue.num "123") ∧
    extract "\x7b\"reply\":42,\"order\":null\x7d" =
      some [("reply", JValue.num "42"), ("order", JValue.arr []),
        ("check_sandwich", JValue.bool false)] :=
  ⟨rfl, rfl, rfl⟩

/-- C2: on every input whose cleaned text fails to parse as JSON, the
routine returns the fallback structure whose `reply` is the original
untouched input verbatim, with an empty `order` and a false
`check_sandwich`. -/
theorem extract_parse_failure_fallback (s : String)
    (h : json_loads (extract_json_block s) = none) :
    extract s = some [("reply", JValue.str s), ("order", JValue.arr []),
      ("check_sandwich", JValue.bool false)] := by
  simp [extract, parse_or_fallback, h, ensure_keys, ensure_reply, ensure_order,
    ensure_check, fallback_obj, dictGet]

theorem extract_parse_failure_fallback_witness :
    json_loads (extract_json_block "not json at all") = none ∧
    extract "not json at all" =
      some [("reply", JValue.str "not json at all"), ("order", JValue.arr []),
        ("check_sandwich", JValue.bool false)] :=
  ⟨rfl, extract_parse_failure_fallback "not json at all" rfl⟩

/-- C3: on every input whose cleaned text parses to a JSON object, the
normalization maps a missing `order` key or an `order` bound to JSON null
to the empty array, and leaves any present non-null `order` value
untouched. -/
theorem extract_order_normalization (s : String) (kvs : List (String × JValue))
    (h : json_loads (extract_json_block s) = some (JValue.obj kvs)) :
    ∃ o, extract s = some o ∧
      ((dictGet kvs "order" = none ∨ dictGet kvs "order" = some JValue.null) →
        dictGet o "order" = some (JValue.arr [])) ∧
      (∀ v, dictGet kvs "order" = some v → v ≠ JValue.null →
        dictGet o "order" = some v) := by
  refine ⟨ensure_check (ensure_order (ensure_reply kvs)), ?_, ?_, ?_⟩
  · simp [extract, parse_or_fallback, h, ensure_keys]
  · intro hd
    rw [ensure_check_get_other _ _ (by decide)]
    apply ensure_order_get_default
    rcases hd with hd | hd
    · exact Or.inl (by rw [ensure_reply_get_other _ _ (by decide)]; exact hd)
    · exact Or.inr (by rw [ensure_reply_get_other _ _ (by decide)]; exact hd)
  · intro v hv hnv
    rw [ensure_check_get_other _ _ (by decide)]
    exact ensure_order_get_keep _ v
      (by rw [ensure_reply_get_other _ _ (by decide)]; exact hv) hnv

theorem extract_order_normalization_witness :
    ∃ o, extract "\x7b\"reply\":\"hi\",\"order\":null\x7d" = some o ∧
      dictGet o "order" = some (JValue.arr []) := by
  obtain ⟨o, h1, h2, _⟩ := extract_order_normalization
    "\x7b\"reply\":\"hi\",\"order\":null\x7d"
    [("reply", JValue.str "hi"), ("order", JValue.null)] rfl
  exact ⟨o, h1, h2 (Or.inr rfl)⟩

/-- C4: on every input whose whitespace-trimmed form begins with a triple
backtick and contains a newline, the routine discards everything up to
and including the first newline, removes a trailing triple backtick if
the resulting text ends with one, re-trims, and only then performs
boundary extraction. -/
theorem extract_json_block_fence_stripping (s : String) (i : Nat)
    (hfence : (pyStripList s.data).take 3 = ticks)
    (hnl : (pyStripList s.data).findIdx? (fun c => c == '\n') = some i) :
    extract_json_block s =
      String.mk (pyStripList (brace_slice (pyStripList
        (dropTrailingTicks ((pyStripList s.data).drop (i + 1)))))) := by
  have hne : s ≠ "" := by
    intro he
    rw [he] at hfence
    exact absurd hfence (by decide)
  unfold extract_json_block
  rw [if_neg hne]
  unfold strip_fence
  rw [if_pos hfence, hnl]

theorem extract_json_block_fence_stripping_witness :
    (pyStripList ("\x60\x60\x60json\n\x7b\"reply\":\"hi\"\x7d\n\x60\x60\x60" : String).data).take 3 =
      ticks ∧
    extract_json_block "\x60\x60\x60json\n\x7b\"reply\":\"hi\"\x7d\n\x60\x60\x60" =
      "\x7b\"reply\":\"hi\"\x7d" ∧
    extract "\x60\x60\x60json\n\x7b\"reply\":\"hi\"\x7d\n\x60\x60\x60" =
      some [("reply", JValue.str "hi"), ("order", JValue.arr []),
        ("check_sandwich", JValue.bool false)] :=
  ⟨rfl,
    extract_json_block_fence_stripping
      "\x60\x60\x60json\n\x7b\"reply\":\"hi\"\x7d\n\x60\x60\x60" 7 rfl rfl,
    rfl⟩

/-- C5: on every non-fenced text, when the trimmed input has a first
opening brace at index i and a last closing brace at index j with i < j,
the routine slices to that inclusive span (and re-trims); otherwise it
keeps the trimmed text unchanged at that point (and re-trims). -/
theorem extract_json_block_boundary_extraction (s : String)
    (hnf : (pyStripList s.data).take 3 ≠ ticks) :
    (∀ i j, (pyStripList s.data).findIdx? (fun c => c == lbrace) = some i →
        pyRfindIdx (pyStripList s.data) rbrace = some j → i < j →
        extract_json_block s =
          String.mk (pyStripList (((pyStripList s.data).drop i).take (j + 1 - i)))) ∧
    ((∀ i j, (pyStripList s.data).findIdx? (fun c => c == lbrace) = some i →
        pyRfindIdx (pyStripList s.data) rbrace = some j → j ≤ i) →
      extract_json_block s = String.mk (pyStripList (pyStripList s.data))) := by
  by_cases hse : s = ""
  · subst hse
    constructor
    · intro i j h1 _ _
      have hnone : (pyStripList ("" : String).data).findIdx? (fun c => c == lbrace) = none := by
        decide
      rw [hnone] at h1
      exact Option.noConfusion h1
    · intro _
      decide
  · constructor
    · intro i j h1 h2 hij
      unfold extract_json_block
      rw [if_neg hse]
      unfold strip_fence
      rw [if_neg hnf]
      unfold brace_slice
      rw [h1, h2]
      simp [hij]
    · intro hcond
      unfold extract_json_block
      rw [if_neg hse]
      unfold strip_fence
      rw [if_neg hnf]
      unfold brace_slice
      cases hf : (pyStripList s.data).findIdx? (fun c => c == lbrace) with
      | none => rfl
      | some i =>
        cases hr : pyRfindIdx (pyStripList s.data) rbrace with
        | none => rfl
        | some j =>
          have hnlt : ¬i < j := not_lt.mpr (hcond i j hf hr)
          simp [hnlt]

theorem extract_json_block_boundary_extraction_witness :
    extract_json_block "Sure! Here you go: \x7b\"reply\":\"ok\"\x7d Thanks." =
      "\x7b\"reply\":\"ok\"\x7d" ∧
    extract "Sure! Here you go: \x7b\"reply\":\"ok\"\x7d Thanks." =
      some [("reply", JValue.str "ok"), ("order", JValue.arr []),
        ("check_sandwich", JValue.bool false)] :=
  ⟨(extract_json_block_boundary_extraction
      "Sure! Here you go: \x7b\"reply\":\"ok\"\x7d Thanks." (by decide)).1
      19 32 rfl rfl (by decide),
    rfl⟩

/-- C6: extract applied to the serialization of a fully-populated
well-formed structured reply returns that same structure unchanged. -/
theorem extract_idempotent_on_well_formed :
    extract "\x7b\"reply\":\"hi\",\"order\":[],\"check_sandwich\":true\x7d" =
      some [("reply", JValue.str "hi"), ("order", JValue.arr []),
        ("check_sandwich", JValue.bool true)] := rfl

/-- C7: whenever any step of the `/chat` handler body raises (modelled by
the body evaluating to `none`, as a chat-model invocation error does),
the handler catches the exception and returns exactly the fixed fallback
payload; no exception propagates to the caller. -/
theorem chat_route_failure_fallback (req : Option JValue)
    (model : JValue → Option String)
    (h : chat_route_body req model = none) :
    chat_route req model = server_fallback := by
  simp [chat_route, h]

theorem chat_route_failure_fallback_witness :
    chat_route_body (some (JValue.obj [("messages", JValue.arr [])]))
      (fun _ => none) = none ∧
    chat_route (some (JValue.obj [("messages", JValue.arr [])]))
      (fun _ => none) = server_fallback :=
  ⟨rfl, chat_route_failure_fallback _ _ rfl⟩

/-- C8: a `/stt` request with an empty body returns an empty-text result,
whatever the decoder and the speech model would do — neither is
invoked. -/
theorem stt_route_empty_body {α : Type} (decode : List Nat → Option α)
    (to_mono : α → α) (transcribe : α → Option (List String)) :
    stt_route [] decode to_mono transcribe = [("text", JValue.str "")] := rfl

/-- C9: whenever audio decoding or transcription raises, the `/stt`
handler catches the exception and returns an empty-text result; no
exception propagates. -/
theorem stt_route_error_fallback {α : Type} (audio_bytes : List Nat)
    (decode : List Nat → Option α) (to_mono : α → α)
    (transcribe : α → Option (List String))
    (h : decode audio_bytes = none ∨
      ∃ a, decode audio_bytes = some a ∧ transcribe (to_mono a) = none) :
    stt_route audio_bytes decode to_mono transcribe = [("text", JValue.str "")] := by
  by_cases he : audio_bytes.isEmpty
  · simp [stt_route, he]
  · rcases h with h | ⟨a, h1, h2⟩
    · simp [stt_route, he, h]
    · simp [stt_route, he, h1, h2]

theorem stt_route_error_fallback_witness :
    stt_route [0] (fun _ => (none : Option Unit)) id (fun _ => none) =
      [("text", JValue.str "")] :=
  stt_route_error_fallback [0] (fun _ => (none : Option Unit)) id
    (fun _ => none) (Or.inl rfl)

/-- C10: on a `/chat` request whose `messages` list is non-empty and one
of whose last three entries fails the logging subscripts (missing `role`
or `content`, or a `content` that does not support slicing), the logging
loop raises before the chat model is invoked: the handler returns the
fixed fallback payload whatever the model would answer, so the model is
never consulted. -/
theorem chat_route_bad_log_entry_fallback (kvs : List (String × JValue))
    (l : List JValue)
    (hm : dictGet kvs "messages" = some (JValue.arr l)) (hne : l ≠ [])
    (hbad : ∃ m ∈ lastThree l, log_msg_ok m = false) :
    ∀ model, chat_route (some (JValue.obj kvs)) model = server_fallback := by
  intro model
  have hlog : log_messages_ok (JValue.arr l) = false := by
    rcases hbad with ⟨m, hmem, hfalse⟩
    have htr : jTruthy (JValue.arr l) = true := by simp [jTruthy, hne]
    simp only [log_messages_ok, htr, if_true]
    rw [List.all_eq_false]
    exact ⟨m, hmem, by simp [hfalse]⟩
  simp [chat_route, chat_route_body, hm, hlog]

theorem chat_route_bad_log_entry_fallback_witness :
    chat_route (some (JValue.obj [("messages",
        JValue.arr [JValue.obj [("role", JValue.str "user")]])]))
      (fun _ => some "ignored") = server_fallback :=
  chat_route_bad_log_entry_fallback
    [("messages", JValue.arr [JValue.obj [("role", JValue.str "user")]])]
    [JValue.obj [("role", JValue.str "user")]] rfl (by simp)
    ⟨JValue.obj [("role", JValue.str "user")], by simp [lastThree], rfl⟩
    (fun _ => some "ignored")
